import Mathlib

/-!
# libsatiator: command/response protocol engine

A shallow embedding of `src/satiator.c`.

* The peripheral is an arbitrary deterministic device: the value returned by
  a register read is a function of the whole history of register accesses.
* Every volatile register access is appended to the access log of the driver
  state, so "no hardware access" is "the log is unchanged".
* Busy-wait loops take a fuel bound; a run that exhausts it yields `none`.
* C `int` is a 32-bit two's-complement integer (SH-2); values are carried as
  `Int` and narrowed explicitly where the source narrows them.
* Memory is byte addressed and big-endian (SH-2).
-/

namespace Satiator

/-! ## Data model -/

/-- Modelled from the spec: `enum satiator_mode` is declared in `satiator.h`,
which is not part of the sources; the spec lists the mode enumeration as
Unknown, StorageAPI and DiscEmulation, which the code calls `s_unknown`,
`s_api` and `s_cdrom`. -/
inductive satiator_mode where
  | s_unknown
  | s_api
  | s_cdrom
  deriving DecidableEq, Repr

/-- The memory-mapped CD block registers of lines 45-51 that the driver uses. -/
inductive Reg where
  | HIRQ
  | CR1
  | CR2
  | CR3
  | CR4
  | DATATRNS
  deriving DecidableEq, Repr

/-- Width in bits of a register: `uint16_t` for all but the transfer register. -/
def Reg.width : Reg → Nat
  | Reg.DATATRNS => 32
  | _ => 16

/-- One volatile access to a hardware register. -/
inductive Event where
  | rd (r : Reg) (v : Nat)
  | wr (r : Reg) (v : Nat)
  deriving DecidableEq, Repr

/-- The peripheral: the value a register read returns, given every access so far. -/
abbrev Device := List Event → Reg → Nat

/-- The type `cmd_t` (`uint16_t[4]`), also the shape of `sat_result`. -/
structure cmd_t where
  w0 : Nat
  w1 : Nat
  w2 : Nat
  w3 : Nat
  deriving DecidableEq, Repr

/-- Driver state: the hardware access log, main memory (bytes), and the two
file-scope variables `sat_result` and `cur_mode`. -/
structure State where
  log : List Event
  mem : Int → Nat
  sat_result : cmd_t
  cur_mode : satiator_mode

def HIRQ_CMOK : Nat := 0x0001
def HIRQ_DRDY : Nat := 0x0002
def HIRQ_PEND : Nat := 0x0010
def HIRQ_EHST : Nat := 0x0080
def HIRQ_EFLS : Nat := 0x0200
def HIRQ_MPED : Nat := 0x0800

def c_get_status : Nat := 0x90
def c_write_buffer : Nat := 0x91
def c_read_buffer : Nat := 0x92
def c_mkfs : Nat := 0x94
def c_info : Nat := 0x95
def c_read : Nat := 0xA3
def c_write : Nat := 0xA4
def c_stat : Nat := 0xA6
def c_rename : Nat := 0xA7
def c_readdir : Nat := 0xAB
def c_chdir : Nat := 0xAC
def c_emulate : Nat := 0xAD

/-! ## Machine integers -/

/-- Narrowing conversion to `uint16_t`. -/
def u16 (x : Int) : Nat := (x % 65536).toNat

/-- The 32-bit pattern of an `int`. -/
def u32 (x : Int) : Nat := (x % 4294967296).toNat

/-- The `int` with a given 32-bit pattern. -/
def i32 (n : Nat) : Int :=
  if n % 4294967296 < 2147483648 then (n % 4294967296 : Nat) else ((n % 4294967296 : Nat) : Int) - 4294967296

/-- Result of an `int` operation, wrapped to 32 bits. -/
def wrap32 (x : Int) : Int := i32 (u32 x)

/-! ## Memory -/

/-- Load of a `uint32_t` (big-endian). -/
def loadWord (m : Int → Nat) (a : Int) : Nat :=
  (m a % 256) * 16777216 + (m (a + 1) % 256) * 65536 + (m (a + 2) % 256) * 256 + m (a + 3) % 256

/-- Store of one byte. -/
def storeByte (m : Int → Nat) (a : Int) (b : Nat) : Int → Nat :=
  fun x => if x = a then b % 256 else m x

/-- Store of a `uint32_t` (big-endian). -/
def storeWord (m : Int → Nat) (a : Int) (w : Nat) : Int → Nat :=
  fun x =>
    if x = a then w / 16777216 % 256
    else if x = a + 1 then w / 65536 % 256
    else if x = a + 2 then w / 256 % 256
    else if x = a + 3 then w % 256
    else m x

/-- The C library `strlen`: bytes before the first zero byte, scanning at most
`fuel` bytes. -/
def strlen (m : Int → Nat) (p : Int) : Nat → Option Nat
  | 0 => none
  | fuel + 1 => if m p % 256 = 0 then some 0 else (strlen m (p + 1) fuel).map (· + 1)

/-! ## I/O primitives -/

/-- A volatile read of a register: the device answers, the access is logged. -/
def readReg (dev : Device) (r : Reg) (st : State) : Nat × State :=
  let v := dev st.log r % 2 ^ r.width
  (v, { st with log := st.log ++ [Event.rd r v] })

/-- A volatile write of a register, narrowed to the register width. -/
def writeReg (r : Reg) (v : Nat) (st : State) : State :=
  { st with log := st.log ++ [Event.wr r (v % 2 ^ r.width)] }

/-- The loop `while (!(CDB_REG_HIRQ & mask));`, at most `fuel` reads. -/
def busy_wait (dev : Device) (mask : Nat) : Nat → State → Option State
  | 0, _ => none
  | fuel + 1, st =>
    let (v, st1) := readReg dev Reg.HIRQ st
    if v &&& mask ≠ 0 then some st1 else busy_wait dev mask fuel st1

/-- Source `exec_cmd` (lines 74-93). `~(HIRQ_CMOK | wait)` narrowed to 16 bits
is `0xFFFF - (HIRQ_CMOK | wait)`. -/
def exec_cmd (dev : Device) (fuel : Nat) (cr : cmd_t) (wait : Nat) (st : State) : Option State :=
  let st := writeReg Reg.HIRQ (65535 - (HIRQ_CMOK ||| wait) % 65536) st
  let st := writeReg Reg.CR1 cr.w0 st
  let st := writeReg Reg.CR2 cr.w1 st
  let st := writeReg Reg.CR3 cr.w2 st
  let st := writeReg Reg.CR4 cr.w3 st
  match busy_wait dev HIRQ_CMOK fuel st with
  | none => none
  | some st => if wait % 65536 ≠ 0 then busy_wait dev (wait % 65536) fuel st else some st

/-- Source `get_stat` (lines 96-103). -/
def get_stat (dev : Device) (fuel : Nat) (st : State) : Option State :=
  match exec_cmd dev fuel ⟨c_get_status <<< 8, 0, 0, 0⟩ 0 st with
  | none => none
  | some st =>
    let (r0, st) := readReg dev Reg.CR1 st
    let st := { st with sat_result := { st.sat_result with w0 := r0 } }
    let (r1, st) := readReg dev Reg.CR2 st
    let st := { st with sat_result := { st.sat_result with w1 := r1 } }
    let (r2, st) := readReg dev Reg.CR3 st
    let st := { st with sat_result := { st.sat_result with w2 := r2 } }
    let (r3, st) := readReg dev Reg.CR4 st
    some { st with sat_result := { st.sat_result with w3 := r3 } }

/-- The loop `while (n--) CDB_REG_DATATRNS = *p++;`. -/
def xfer_out (p : Int) : Nat → State → State
  | 0, st => st
  | n + 1, st => xfer_out (p + 4) n (writeReg Reg.DATATRNS (loadWord st.mem p) st)

/-- The loop `while (n--) *p++ = CDB_REG_DATATRNS;`. -/
def xfer_in (dev : Device) (p : Int) : Nat → State → State
  | 0, st => st
  | n + 1, st =>
    let (v, st1) := readReg dev Reg.DATATRNS st
    xfer_in dev (p + 4) n { st1 with mem := storeWord st1.mem p v }

/-- Source `buffer_xfer` (lines 105-128). The word count is
`uint16_t n = (len+3)/4` with C division (truncation toward zero). -/
def buffer_xfer (dev : Device) (fuel : Nat) (buf : Int) (len : Int) (dir : Int) (st : State) :
    Option (Int × State) :=
  let cmdbyte := if dir ≠ 0 then c_write_buffer else c_read_buffer
  match exec_cmd dev fuel ⟨(cmdbyte <<< 8) % 65536, 0, 0, u16 len⟩ HIRQ_EHST st with
  | none => none
  | some st =>
    let (e, st) := readReg dev Reg.CR1 st
    if e ≠ 0 then some (-1, st)
    else
      match busy_wait dev HIRQ_DRDY fuel st with
      | none => none
      | some st =>
        let n := u16 (Int.tdiv (wrap32 (len + 3)) 4)
        if dir ≠ 0 then
          let st := xfer_out buf n st
          let st := writeReg Reg.DATATRNS 0 st
          let st := writeReg Reg.DATATRNS 0 st
          some (0, st)
        else
          some (0, xfer_in dev buf n st)

/-- Macro `buffer_read`. -/
def buffer_read (dev : Device) (fuel : Nat) (buf : Int) (len : Int) (st : State) :
    Option (Int × State) :=
  buffer_xfer dev fuel buf len 0 st

/-- Macro `buffer_write`. -/
def buffer_write (dev : Device) (fuel : Nat) (buf : Int) (len : Int) (st : State) :
    Option (Int × State) :=
  buffer_xfer dev fuel buf len 1 st

/-! ## Convenience functions -/

/-- Source `set_cmd` (lines 137-142), on 32-bit patterns; each word is narrowed
to `uint16_t` on assignment. -/
def set_cmd (op fd flags len : Int) : cmd_t :=
  { w0 := ((u32 op <<< 8) ||| (u32 fd &&& 0xff)) % 65536
    w1 := u16 flags
    w2 := u16 (len >>> (16 : Nat))
    w3 := u16 len }

/-- Macro `get_check_stat`: `some r` is the early `return r` of the enclosing
function, `none` means execution continues. -/
def get_check_stat (dev : Device) (fuel : Nat) (st : State) : Option (Option Int × State) :=
  match get_stat dev fuel st with
  | none => none
  | some st =>
    let retval := (st.sat_result.w0 >>> 8) % 256
    if retval ≠ 0 then some (some (-(retval : Int)), st) else some (none, st)

/-- Macro `get_length`: an `int` expression. -/
def get_length (st : State) : Int :=
  i32 ((st.sat_result.w2 <<< 16) ||| st.sat_result.w3)

/-- Macro `simplecall`. -/
def simplecall (dev : Device) (fuel : Nat) (op fd flags len : Int) (st : State) :
    Option (Option Int × State) :=
  match exec_cmd dev fuel (set_cmd op fd flags len) HIRQ_MPED st with
  | none => none
  | some st => get_check_stat dev fuel st

/-! ## File API -/

/-- Source `s_read` (lines 186-193). `S_MAXBUF` and `FR_INVALID_PARAMETER` come
from `satiator.h`, which is not part of the sources, and are parameters. -/
def s_read (S_MAXBUF FR_INVALID_PARAMETER : Int) (dev : Device) (fuel : Nat)
    (fd buf len : Int) (st : State) : Option (Int × State) :=
  if len > S_MAXBUF ∨ len < 0 then some (-FR_INVALID_PARAMETER, st)
  else
    match simplecall dev fuel c_read fd 0 len st with
    | none => none
    | some (some r, st) => some (r, st)
    | some (none, st) =>
      let len := get_length st
      match buffer_read dev fuel buf len st with
      | none => none
      | some (_, st) => some (len, st)

/-- Source `s_write` (lines 196-202). -/
def s_write (S_MAXBUF FR_INVALID_PARAMETER : Int) (dev : Device) (fuel : Nat)
    (fd buf len : Int) (st : State) : Option (Int × State) :=
  if len > S_MAXBUF ∨ len < 0 then some (-FR_INVALID_PARAMETER, st)
  else
    match buffer_write dev fuel buf len st with
    | none => none
    | some (_, st) =>
      match simplecall dev fuel c_write fd 0 len st with
      | none => none
      | some (some r, st) => some (r, st)
      | some (none, st) => some (get_length st, st)

/-- Source `s_stat` (lines 220-236). A null `filename` is `none`. -/
def s_stat (FR_INVALID_PARAMETER : Int) (dev : Device) (fuel : Nat)
    (filename : Option Int) (stat : Int) (statsize : Int) (st : State) : Option (Int × State) :=
  if statsize < 9 then some (-FR_INVALID_PARAMETER, st)
  else
    let pre : Option (Int × State) :=
      match filename with
      | some p =>
        match strlen st.mem p fuel with
        | none => none
        | some k =>
          let len := wrap32 k
          match buffer_write dev fuel p len st with
          | none => none
          | some (_, st) => some (len, st)
      | none => some (0, st)
    match pre with
    | none => none
    | some (len, st) =>
      match simplecall dev fuel (if filename.isSome then c_stat else c_readdir) 0 0 len st with
      | none => none
      | some (some r, st) => some (r, st)
      | some (none, st) =>
        let len := get_length st
        let len := if len > statsize then statsize else len
        match buffer_read dev fuel stat len st with
        | none => none
        | some (_, st) => some (wrap32 (len - 9), st)

/-- Source `s_getcwd` (lines 284-293). `dot` is the address of the string
literal `"."`. -/
def s_getcwd (dev : Device) (fuel : Nat) (dot : Int) (filename : Int) (buflen : Int)
    (st : State) : Option (Int × State) :=
  match buffer_write dev fuel dot 1 st with
  | none => none
  | some (_, st) =>
    match simplecall dev fuel c_chdir 0 0 1 st with
    | none => none
    | some (some r, st) => some (r, st)
    | some (none, st) =>
      let buflen := wrap32 (buflen - 1)
      let buflen := if buflen > get_length st then get_length st else buflen
      match buffer_read dev fuel filename buflen st with
      | none => none
      | some (_, st) =>
        some (buflen, { st with mem := storeByte st.mem (filename + buflen) 0 })

/-- Source `is_satiator_present` (lines 303-310). -/
def is_satiator_present (dev : Device) (fuel : Nat) (st : State) : Option (Int × State) :=
  match exec_cmd dev fuel ⟨0x0100, 0, 0, 0⟩ 0 st with
  | none => none
  | some st =>
    let (v, st) := readReg dev Reg.CR3 st
    some (if v &&& 0xff = 2 then 1 else 0, st)

/-- Source `s_mode` (lines 313-345). The self-call is bounded by `depth`. -/
def s_mode (dev : Device) (fuel : Nat) : Nat → satiator_mode → State → Option (Int × State)
  | 0, _, _ => none
  | depth + 1, mode, st =>
    let boot : Option State :=
      if st.cur_mode = satiator_mode.s_unknown then
        match s_mode dev fuel depth satiator_mode.s_cdrom
            { st with cur_mode := satiator_mode.s_api } with
        | none => none
        | some (_, st) => some st
      else some st
    match boot with
    | none => none
    | some st =>
      if mode = st.cur_mode then some (0, st)
      else if mode = satiator_mode.s_cdrom then
        match exec_cmd dev fuel ⟨0x9300, 1, 0, 0⟩ HIRQ_MPED st with
        | none => none
        | some st => some (0, { st with cur_mode := mode })
      else
        match exec_cmd dev fuel ⟨0xe000, 0x0000, 0x00c1, 0x05e7⟩ HIRQ_EFLS st with
        | none => none
        | some st =>
          match is_satiator_present dev fuel st with
          | none => none
          | some (present, st) =>
            if present = 0 then some (-1, st)
            else
              match exec_cmd dev fuel ⟨0x0400, 0x0001, 0x0000, 0x040f⟩ 0 st with
              | none => none
              | some st => some (0, { st with cur_mode := mode })

/-! ## Observables -/

/-- The register an access refers to. -/
def Event.reg : Event → Reg
  | Event.rd r _ => r
  | Event.wr r _ => r

/-- The access log without the interrupt-flag handshake: every access to the
control registers and the transfer register, in order. -/
def trace (log : List Event) : List Event :=
  log.filter (fun e => decide (e.reg ≠ Reg.HIRQ))

/-- The four control-register writes of one command frame. -/
def frameEvents (cr : cmd_t) : List Event :=
  [Event.wr Reg.CR1 (cr.w0 % 65536), Event.wr Reg.CR2 (cr.w1 % 65536),
   Event.wr Reg.CR3 (cr.w2 % 65536), Event.wr Reg.CR4 (cr.w3 % 65536)]

/-- The device answers every busy-wait of the driver within `fuel` reads of the
interrupt-flag register, whatever happened before. -/
def Responsive (dev : Device) (fuel : Nat) : Prop :=
  ∀ (st : State) (mask : Nat),
    mask ∈ [HIRQ_CMOK, HIRQ_DRDY, HIRQ_EHST, HIRQ_EFLS, HIRQ_MPED] →
      ∃ st', busy_wait dev mask fuel st = some st'

/-- A device that raises every interrupt flag at once and reads `c1 .. c4` on
the control registers and `d` on the transfer register. -/
def constDevice (c1 c2 c3 c4 d : Nat) : Device := fun _ r =>
  match r with
  | Reg.HIRQ => 0xFFFF
  | Reg.CR1 => c1
  | Reg.CR2 => c2
  | Reg.CR3 => c3
  | Reg.CR4 => c4
  | Reg.DATATRNS => d

/-- An initial state: empty log, zeroed memory, the initialiser of `cur_mode`. -/
def st0 : State :=
  { log := [], mem := fun _ => 0, sat_result := ⟨0, 0, 0, 0⟩, cur_mode := satiator_mode.s_cdrom }

/-- The four control-register reads that fill `sat_result`. -/
def statusEvents (w : cmd_t) : List Event :=
  [Event.rd Reg.CR1 w.w0, Event.rd Reg.CR2 w.w1, Event.rd Reg.CR3 w.w2, Event.rd Reg.CR4 w.w3]

/-- Every word of a status response is a 16-bit value. -/
def cmd_t.wf (w : cmd_t) : Prop :=
  w.w0 < 65536 ∧ w.w1 < 65536 ∧ w.w2 < 65536 ∧ w.w3 < 65536

/-- The early-return value of `get_check_stat` for a status word `w0`. -/
def statusError (w0 : Nat) : Option Int :=
  if w0 >>> 8 ≠ 0 then some (-((w0 >>> 8 : Nat) : Int)) else none

/-- The first `n` 32-bit words of the buffer at `p`, in order. -/
def bufWords (m : Int → Nat) (p : Int) (n : Nat) : List Nat :=
  (List.range n).map (fun (i : Nat) => loadWord m (p + 4 * (i : Int)))

/-- The word count `uint16_t n = (len+3)/4` of `buffer_xfer`. -/
def xferWords (len : Int) : Nat := u16 (Int.tdiv (wrap32 (len + 3)) 4)

/-- The frame `buffer_xfer` issues for a length and a direction. -/
def xferFrame (len dir : Int) : cmd_t :=
  ⟨((if dir ≠ 0 then c_write_buffer else c_read_buffer) <<< 8) % 65536, 0, 0, u16 len⟩

/-- The unsigned 32-bit value `(word2 << 16) | word3` of a status response. -/
def reportedLen (w : cmd_t) : Nat := w.w2 * 65536 + w.w3

/-- The frame that unlocks the storage API. -/
def unlockFrame : cmd_t := ⟨0xe000, 0x0000, 0x00c1, 0x05e7⟩

/-- The frame of the presence probe. -/
def probeFrame : cmd_t := ⟨0x0100, 0, 0, 0⟩

/-- The frame that selects disc emulation. -/
def cdromFrame : cmd_t := ⟨0x9300, 1, 0, 0⟩

/-- The initial state with the tracked mode set to unknown. -/
def stUnknown : State := { st0 with cur_mode := satiator_mode.s_unknown }

/-- The frame of `get_stat`. -/
def statusFrame : cmd_t := ⟨c_get_status <<< 8, 0, 0, 0⟩

/-- A state whose memory holds `0xFF` in every byte. -/
def stFF : State := { st0 with mem := fun _ => 0xFF }

/-! ## Lemmas on the primitives -/

theorem trace_append (l1 l2 : List Event) : trace (l1 ++ l2) = trace l1 ++ trace l2 := by
  simp [trace]

theorem trace_rd_hirq (v : Nat) : trace [Event.rd Reg.HIRQ v] = [] := by
  simp [trace, Event.reg]

theorem busy_wait_frame (dev : Device) (mask : Nat) :
    ∀ (fuel : Nat) (st st' : State), busy_wait dev mask fuel st = some st' →
      st'.mem = st.mem ∧ st'.sat_result = st.sat_result ∧ st'.cur_mode = st.cur_mode ∧
        trace st'.log = trace st.log := by
  intro fuel
  induction fuel with
  | zero => intro st st' h; simp [busy_wait] at h
  | succ k ih =>
    intro st st' h
    simp only [busy_wait, readReg] at h
    split at h
    · injection h with h
      subst h
      simp [trace_append, trace_rd_hirq]
    · have := ih _ _ h
      simpa [trace_append, trace_rd_hirq] using this

theorem exec_cmd_frame (dev : Device) (fuel : Nat) (cr : cmd_t) (wait : Nat) (st st' : State)
    (h : exec_cmd dev fuel cr wait st = some st') :
    st'.mem = st.mem ∧ st'.sat_result = st.sat_result ∧ st'.cur_mode = st.cur_mode ∧
      trace st'.log = trace st.log ++ frameEvents cr := by
  simp only [exec_cmd] at h
  split at h
  · simp at h
  · rename_i s1 h1
    have f1 := busy_wait_frame dev _ _ _ _ h1
    have e1 : trace s1.log = trace st.log ++ frameEvents cr := by
      rw [f1.2.2.2]
      simp [writeReg, trace, frameEvents, Event.reg, Reg.width]
    split at h
    · have f2 := busy_wait_frame dev _ _ _ _ h
      refine ⟨?_, ?_, ?_, ?_⟩
      · rw [f2.1, f1.1]; rfl
      · rw [f2.2.1, f1.2.1]; rfl
      · rw [f2.2.2.1, f1.2.2.1]; rfl
      · rw [f2.2.2.2, e1]
    · injection h with h
      subst h
      refine ⟨?_, ?_, ?_, e1⟩
      · rw [f1.1]; rfl
      · rw [f1.2.1]; rfl
      · rw [f1.2.2.1]; rfl

theorem exec_cmd_total (dev : Device) (fuel : Nat) (hr : Responsive dev fuel) (cr : cmd_t)
    (wait : Nat) (hw : wait = 0 ∨ wait ∈ [HIRQ_EHST, HIRQ_EFLS, HIRQ_MPED]) (st : State) :
    ∃ st', exec_cmd dev fuel cr wait st = some st' := by
  simp only [exec_cmd]
  obtain ⟨s1, h1⟩ := hr (writeReg Reg.CR4 cr.w3 (writeReg Reg.CR3 cr.w2 (writeReg Reg.CR2 cr.w1
    (writeReg Reg.CR1 cr.w0 (writeReg Reg.HIRQ (65535 - (HIRQ_CMOK ||| wait) % 65536) st)))))
    HIRQ_CMOK (by simp)
  rw [h1]
  rcases hw with hw | hw
  · subst hw
    exact ⟨s1, by simp⟩
  · have hm : wait % 65536 = wait := by
      simp only [List.mem_cons, List.mem_singleton, List.not_mem_nil, or_false] at hw
      rcases hw with hw | hw | hw <;> subst hw <;> decide
    have hne : wait % 65536 ≠ 0 := by
      simp only [List.mem_cons, List.mem_singleton, List.not_mem_nil, or_false] at hw
      rcases hw with hw | hw | hw <;> subst hw <;> decide
    obtain ⟨s2, h2⟩ := hr s1 wait (by
      simp only [List.mem_cons, List.mem_singleton, List.not_mem_nil, or_false] at hw ⊢
      tauto)
    refine ⟨s2, ?_⟩
    show (if wait % 65536 ≠ 0 then busy_wait dev (wait % 65536) fuel s1 else some s1) = some s2
    rw [if_pos hne, hm, h2]

/-- Under a responsive device `exec_cmd` returns, having issued exactly its frame. -/
theorem exec_cmd_spec (dev : Device) (fuel : Nat) (hr : Responsive dev fuel) (cr : cmd_t)
    (wait : Nat) (hw : wait = 0 ∨ wait ∈ [HIRQ_EHST, HIRQ_EFLS, HIRQ_MPED]) (st : State) :
    ∃ st', exec_cmd dev fuel cr wait st = some st' ∧
      st'.mem = st.mem ∧ st'.sat_result = st.sat_result ∧ st'.cur_mode = st.cur_mode ∧
        trace st'.log = trace st.log ++ frameEvents cr := by
  obtain ⟨st', h⟩ := exec_cmd_total dev fuel hr cr wait hw st
  exact ⟨st', h, exec_cmd_frame dev fuel cr wait st st' h⟩

theorem constDevice_responsive (c1 c2 c3 c4 d : Nat) :
    Responsive (constDevice c1 c2 c3 c4 d) 1 := by
  intro st mask hm
  simp only [List.mem_cons, List.mem_singleton, List.not_mem_nil, or_false] at hm
  rcases hm with hm | hm | hm | hm | hm <;> subst hm <;>
    simp [busy_wait, readReg, constDevice, Reg.width, HIRQ_CMOK, HIRQ_DRDY, HIRQ_EHST,
      HIRQ_EFLS, HIRQ_MPED]

theorem get_stat_frame (dev : Device) (fuel : Nat) (st st' : State)
    (h : get_stat dev fuel st = some st') :
    st'.mem = st.mem ∧ st'.cur_mode = st.cur_mode ∧ st'.sat_result.wf ∧
      trace st'.log = trace st.log ++ frameEvents ⟨c_get_status <<< 8, 0, 0, 0⟩ ++
        statusEvents st'.sat_result := by
  simp only [get_stat] at h
  split at h
  · simp at h
  · rename_i s1 h1
    obtain ⟨f1, _, f3, f4⟩ := exec_cmd_frame dev fuel _ _ _ _ h1
    simp only [readReg] at h
    injection h with h
    subst h
    refine ⟨f1, f3, ?_, ?_⟩
    · simp only [cmd_t.wf, Reg.width]
      refine ⟨?_, ?_, ?_, ?_⟩ <;> exact Nat.mod_lt _ (by norm_num)
    · simp only [trace_append, f4, statusEvents]
      simp [trace, Event.reg]

theorem get_stat_spec (dev : Device) (fuel : Nat) (hr : Responsive dev fuel) (st : State) :
    ∃ st', get_stat dev fuel st = some st' ∧
      st'.mem = st.mem ∧ st'.cur_mode = st.cur_mode ∧ st'.sat_result.wf ∧
      trace st'.log = trace st.log ++ frameEvents ⟨c_get_status <<< 8, 0, 0, 0⟩ ++
        statusEvents st'.sat_result := by
  obtain ⟨s1, h1⟩ := exec_cmd_total dev fuel hr ⟨c_get_status <<< 8, 0, 0, 0⟩ 0 (Or.inl rfl) st
  have : ∃ st', get_stat dev fuel st = some st' := by
    simp only [get_stat, h1, readReg]
    exact ⟨_, rfl⟩
  obtain ⟨st', h⟩ := this
  exact ⟨st', h, get_stat_frame dev fuel st st' h⟩

theorem shiftRight8_mod (w : Nat) (h : w < 65536) : (w >>> 8) % 256 = w >>> 8 := by
  rw [Nat.shiftRight_eq_div_pow]
  apply Nat.mod_eq_of_lt
  omega

/-- The call builder: under a responsive device `simplecall` returns; it issues
its frame and the status frame, snapshots the four response words, and asks for
an early return exactly when the high byte of the first word is non-zero. -/
theorem simplecall_spec (dev : Device) (fuel : Nat) (hr : Responsive dev fuel)
    (op fd flags len : Int) (st : State) :
    ∃ st', simplecall dev fuel op fd flags len st = some (statusError st'.sat_result.w0, st') ∧
      st'.mem = st.mem ∧ st'.cur_mode = st.cur_mode ∧ st'.sat_result.wf ∧
      trace st'.log = trace st.log ++ frameEvents (set_cmd op fd flags len) ++
        frameEvents ⟨c_get_status <<< 8, 0, 0, 0⟩ ++ statusEvents st'.sat_result := by
  obtain ⟨s1, h1, m1, _, c1, t1⟩ :=
    exec_cmd_spec dev fuel hr (set_cmd op fd flags len) HIRQ_MPED (Or.inr (by simp)) st
  obtain ⟨s2, h2, m2, c2, w2, t2⟩ := get_stat_spec dev fuel hr s1
  refine ⟨s2, ?_, by rw [m2, m1], by rw [c2, c1], w2, by rw [t2, t1]⟩
  simp only [simplecall, h1, get_check_stat, h2, statusError, shiftRight8_mod _ w2.1]
  split <;> rfl

/-! ## The transfer loops -/

theorem loadWord_lt (m : Int → Nat) (a : Int) : loadWord m a < 4294967296 := by
  unfold loadWord
  omega

theorem loadWord_storeWord_same (m : Int → Nat) (a : Int) (w : Nat) :
    loadWord (storeWord m a w) a = w % 4294967296 := by
  have h1 : a + 1 ≠ a := by omega
  have h2 : a + 2 ≠ a := by omega
  have h3 : a + 3 ≠ a := by omega
  have h4 : a + 2 ≠ a + 1 := by omega
  have h5 : a + 3 ≠ a + 1 := by omega
  have h6 : a + 3 ≠ a + 2 := by omega
  simp only [loadWord, storeWord, if_true, h1, h2, h3, h4, h5, h6, if_false]
  omega

theorem loadWord_congr (m m' : Int → Nat) (a : Int)
    (h : ∀ x, a ≤ x → x < a + 4 → m' x = m x) : loadWord m' a = loadWord m a := by
  simp only [loadWord]
  rw [h a (by omega) (by omega), h (a + 1) (by omega) (by omega),
    h (a + 2) (by omega) (by omega), h (a + 3) (by omega) (by omega)]

theorem storeWord_other (m : Int → Nat) (a : Int) (w : Nat) (x : Int)
    (h : x < a ∨ a + 4 ≤ x) : storeWord m a w x = m x := by
  have h0 : x ≠ a := by omega
  have h1 : x ≠ a + 1 := by omega
  have h2 : x ≠ a + 2 := by omega
  have h3 : x ≠ a + 3 := by omega
  simp [storeWord, h0, h1, h2, h3]

theorem bufWords_succ (m : Int → Nat) (p : Int) (n : Nat) :
    bufWords m p (n + 1) = loadWord m p :: bufWords m (p + 4) n := by
  rw [bufWords, List.range_succ_eq_map]
  simp only [bufWords, List.map_cons, List.map_map]
  rw [List.cons.injEq]
  constructor
  · have h0 : p + 4 * ((0 : Nat) : Int) = p := by simp
    rw [h0]
  · apply List.map_congr_left
    intro i _
    have hi : p + 4 * ((i.succ : Nat) : Int) = p + 4 + 4 * (i : Int) := by
      push_cast
      ring
    simp only [Function.comp, hi]

theorem bufWords_length (m : Int → Nat) (p : Int) (n : Nat) : (bufWords m p n).length = n := by
  simp [bufWords]

theorem xfer_out_spec (n : Nat) : ∀ (p : Int) (st : State),
    (xfer_out p n st).mem = st.mem ∧ (xfer_out p n st).sat_result = st.sat_result ∧
    (xfer_out p n st).cur_mode = st.cur_mode ∧
    (xfer_out p n st).log = st.log ++ (bufWords st.mem p n).map (Event.wr Reg.DATATRNS) := by
  induction n with
  | zero => intro p st; simp [xfer_out, bufWords]
  | succ k ih =>
    intro p st
    obtain ⟨h1, h2, h3, h4⟩ := ih (p + 4) (writeReg Reg.DATATRNS (loadWord st.mem p) st)
    simp only [xfer_out]
    refine ⟨by rw [h1]; rfl, by rw [h2]; rfl, by rw [h3]; rfl, ?_⟩
    rw [h4, bufWords_succ]
    have : loadWord st.mem p % 2 ^ Reg.DATATRNS.width = loadWord st.mem p :=
      Nat.mod_eq_of_lt (by simpa [Reg.width] using loadWord_lt st.mem p)
    simp [writeReg, this]

theorem xfer_in_spec (dev : Device) (n : Nat) : ∀ (p : Int) (st : State),
    (xfer_in dev p n st).sat_result = st.sat_result ∧
    (xfer_in dev p n st).cur_mode = st.cur_mode ∧
    (xfer_in dev p n st).log =
      st.log ++ (bufWords (xfer_in dev p n st).mem p n).map (Event.rd Reg.DATATRNS) ∧
    (∀ x, x < p ∨ p + 4 * (n : Int) ≤ x → (xfer_in dev p n st).mem x = st.mem x) := by
  induction n with
  | zero => intro p st; simp [xfer_in, bufWords]
  | succ k ih =>
    intro p st
    simp only [xfer_in, readReg]
    generalize hv : dev st.log Reg.DATATRNS % 2 ^ Reg.DATATRNS.width = v
    have hvlt : v < 4294967296 := by
      rw [← hv]
      exact Nat.mod_lt _ (by norm_num)
    obtain ⟨h1, h2, h3, h4⟩ := ih (p + 4)
      { st with log := st.log ++ [Event.rd Reg.DATATRNS v], mem := storeWord st.mem p v }
    refine ⟨by rw [h1], by rw [h2], ?_, ?_⟩
    · rw [h3, bufWords_succ]
      have hw : loadWord (xfer_in dev (p + 4) k
          { st with log := st.log ++ [Event.rd Reg.DATATRNS v],
                    mem := storeWord st.mem p v }).mem p = v := by
        rw [loadWord_congr (storeWord st.mem p v) _ p, loadWord_storeWord_same,
          Nat.mod_eq_of_lt hvlt]
        intro x hx1 hx2
        exact h4 x (by omega)
      rw [hw]
      simp
    · intro x hx
      rw [h4 x (by push_cast at hx; omega)]
      exact storeWord_other _ _ _ _ (by push_cast at hx; omega)

/-- What `buffer_xfer` does under a responsive device: it issues its frame and
reads the first response register once (value `e`); a non-zero `e` ends the
call with `-1` and nothing else happens; otherwise the payload words move
through the transfer register (`rest`) and the call returns `0`. -/
theorem buffer_xfer_spec (dev : Device) (fuel : Nat) (hr : Responsive dev fuel)
    (buf len dir : Int) (st : State) :
    ∃ (e : Nat) (rv : Int) (st' : State) (rest : List Event),
      buffer_xfer dev fuel buf len dir st = some (rv, st') ∧
      st'.sat_result = st.sat_result ∧ st'.cur_mode = st.cur_mode ∧
      trace st'.log = trace st.log ++ frameEvents (xferFrame len dir) ++ Event.rd Reg.CR1 e :: rest ∧
      (e ≠ 0 → rv = -1 ∧ rest = [] ∧ st'.mem = st.mem) ∧
      (e = 0 → rv = 0 ∧
        (dir ≠ 0 → st'.mem = st.mem ∧
          rest = (bufWords st.mem buf (xferWords len)).map (Event.wr Reg.DATATRNS) ++
            [Event.wr Reg.DATATRNS 0, Event.wr Reg.DATATRNS 0]) ∧
        (dir = 0 →
          rest = (bufWords st'.mem buf (xferWords len)).map (Event.rd Reg.DATATRNS) ∧
          ∀ x, x < buf ∨ buf + 4 * (xferWords len : Int) ≤ x → st'.mem x = st.mem x)) := by
  obtain ⟨s1, h1, m1, r1, c1, t1⟩ :=
    exec_cmd_spec dev fuel hr (xferFrame len dir) HIRQ_EHST (Or.inr (by simp)) st
  have hx : exec_cmd dev fuel ⟨((if dir ≠ 0 then c_write_buffer else c_read_buffer) <<< 8) % 65536,
      0, 0, u16 len⟩ HIRQ_EHST st = some s1 := h1
  simp only [buffer_xfer, hx, readReg]
  generalize he : dev s1.log Reg.CR1 % 2 ^ Reg.CR1.width = e
  have tr : ∀ l, trace ((s1.log ++ [Event.rd Reg.CR1 e]) ++ l) =
      trace st.log ++ frameEvents (xferFrame len dir) ++ Event.rd Reg.CR1 e :: trace l := by
    intro l
    rw [trace_append, trace_append, t1]
    simp [trace, Event.reg]
  by_cases hz : e = 0
  · obtain ⟨s2, h2⟩ := hr { s1 with log := s1.log ++ [Event.rd Reg.CR1 0] } HIRQ_DRDY (by simp)
    obtain ⟨m2, r2, c2, t2⟩ := busy_wait_frame dev _ _ _ _ h2
    have t2' : trace s2.log =
        trace st.log ++ frameEvents (xferFrame len dir) ++ [Event.rd Reg.CR1 e] := by
      rw [t2]
      have := tr []
      rw [hz] at this ⊢
      simpa [trace] using this
    simp only [hz, ne_eq, not_true_eq_false, if_false, h2]
    by_cases hd : dir = 0
    · obtain ⟨x1, x2, x3, x4⟩ := xfer_in_spec dev (xferWords len) buf s2
      refine ⟨0, 0, xfer_in dev buf (xferWords len) s2,
        (bufWords (xfer_in dev buf (xferWords len) s2).mem buf (xferWords len)).map
          (Event.rd Reg.DATATRNS), ?_, ?_, ?_, ?_, ?_, ?_⟩
      · simp [hd, xferWords]
      · rw [x1, r2, r1]
      · rw [x2, c2, c1]
      · rw [x3, trace_append, t2', hz]
        simp [trace, Event.reg]
      · intro h; exact absurd rfl h
      · intro _
        refine ⟨rfl, fun h => absurd hd h, fun _ => ⟨rfl, ?_⟩⟩
        intro x hx
        rw [x4 x hx, m2, m1]
    · obtain ⟨x1, x2, x3, x4⟩ := xfer_out_spec (xferWords len) buf s2
      refine ⟨0, 0, writeReg Reg.DATATRNS 0 (writeReg Reg.DATATRNS 0
        (xfer_out buf (xferWords len) s2)),
        (bufWords st.mem buf (xferWords len)).map (Event.wr Reg.DATATRNS) ++
            [Event.wr Reg.DATATRNS 0, Event.wr Reg.DATATRNS 0], ?_, ?_, ?_, ?_, ?_, ?_⟩
      · simp [hd, xferWords]
      · show (xfer_out buf (xferWords len) s2).sat_result = st.sat_result
        rw [x2, r2, r1]
      · show (xfer_out buf (xferWords len) s2).cur_mode = st.cur_mode
        rw [x3, c2, c1]
      · show trace (((xfer_out buf (xferWords len) s2).log ++ _) ++ _) = _
        rw [x4, trace_append, trace_append, trace_append, t2', hz, m2]
        have : s1.mem = st.mem := m1
        simp [trace, Event.reg, Reg.width, this]
      · intro h; exact absurd rfl h
      · intro _
        refine ⟨rfl, fun _ => ⟨?_, rfl⟩, fun h => absurd h hd⟩
        show (xfer_out buf (xferWords len) s2).mem = st.mem
        rw [x1, m2, m1]
  · refine ⟨e, -1, { s1 with log := s1.log ++ [Event.rd Reg.CR1 e] }, [], ?_, r1, c1, ?_, ?_, ?_⟩
    · simp [hz]
    · have := tr []
      simpa [trace] using this
    · intro _; exact ⟨rfl, rfl, m1⟩
    · intro h; exact absurd h hz

/-! ## Arithmetic of the narrowing conversions -/

theorem shl16_or (a b : Nat) (hb : b < 65536) : (a <<< 16) ||| b = a * 65536 + b := by
  have h := Nat.mul_add_lt_is_or (show b < 2 ^ 16 by norm_num; exact hb) a
  rw [Nat.shiftLeft_eq, Nat.mul_comm a (2 ^ 16), ← h]

theorem shl8_or (a b : Nat) (hb : b < 256) : (a <<< 8) ||| b = a * 256 + b := by
  have h := Nat.mul_add_lt_is_or (show b < 2 ^ 8 by norm_num; exact hb) a
  rw [Nat.shiftLeft_eq, Nat.mul_comm a (2 ^ 8), ← h]

theorem and_ff (x : Nat) : x &&& 0xff = x % 256 := by
  have h := Nat.and_pow_two_sub_one_eq_mod x 8
  norm_num at h
  exact h

theorem xferWords_eq (len : Int) (h0 : 0 ≤ len) (h1 : len ≤ 262140) :
    xferWords len = (len.toNat + 3) / 4 := by
  have hw : wrap32 (len + 3) = len + 3 := by
    simp only [wrap32, i32, u32]
    split <;> omega
  simp only [xferWords, hw, u16]
  rw [Int.tdiv_eq_ediv (by omega) (by norm_num)]
  omega

theorem wrap32_id (x : Int) (h0 : -2147483648 ≤ x) (h1 : x < 2147483648) : wrap32 x = x := by
  simp only [wrap32, i32, u32]
  split <;> omega

theorem get_length_eq (st : State) (hw : st.sat_result.wf) (hs : st.sat_result.w2 < 32768) :
    get_length st = (reportedLen st.sat_result : Int) := by
  obtain ⟨_, _, h2, h3⟩ := hw
  simp only [get_length, reportedLen, shl16_or _ _ h3, i32]
  split <;> omega

/-! ## Claims -/

/-- Claim C1: for every `len` with `len < 0` or `len > S_MAXBUF`, `s_read` and
`s_write` both return `-FR_INVALID_PARAMETER` and leave the whole driver state
unchanged: the hardware access log gains no read or write of any register, and
memory (so the buffer) is untouched. No fuel is needed: the calls always return. -/
theorem C1_length_validation (S_MAXBUF FR_INVALID_PARAMETER : Int) (dev : Device) (fuel : Nat)
    (fd buf len : Int) (st : State) (h : len < 0 ∨ len > S_MAXBUF) :
    s_read S_MAXBUF FR_INVALID_PARAMETER dev fuel fd buf len st
        = some (-FR_INVALID_PARAMETER, st) ∧
      s_write S_MAXBUF FR_INVALID_PARAMETER dev fuel fd buf len st
        = some (-FR_INVALID_PARAMETER, st) := by
  have h' : len > S_MAXBUF ∨ len < 0 := h.symm
  simp [s_read, s_write, h']

theorem C1_length_validation_witness :
    ((2049 : Int) < 0 ∨ (2049 : Int) > 2048) ∧
      s_read 2048 19 (constDevice 0 0 0 0 0) 0 3 100 2049 st0 = some (-19, st0) ∧
      s_write 2048 19 (constDevice 0 0 0 0 0) 0 3 100 2049 st0 = some (-19, st0) :=
  ⟨Or.inr (by decide),
    C1_length_validation 2048 19 (constDevice 0 0 0 0 0) 0 3 100 2049 st0 (Or.inr (by decide))⟩

/-- The body of `s_mode` entering the storage API from disc emulation, under a
responsive device: unlock frame, probe frame, one read `v` of the third
response register; when the low byte of `v` is not 2 the call returns `-1`
without committing. -/
theorem s_mode_api_from_cdrom (dev : Device) (fuel : Nat) (hr : Responsive dev fuel)
    (depth : Nat) (st : State) (hc : st.cur_mode = satiator_mode.s_cdrom) :
    ∃ (v : Nat) (rv : Int) (st' : State) (rest : List Event),
      s_mode dev fuel (depth + 1) satiator_mode.s_api st = some (rv, st') ∧
      trace st'.log = trace st.log ++ frameEvents unlockFrame ++ frameEvents probeFrame ++
        Event.rd Reg.CR3 v :: rest ∧
      (v % 256 ≠ 2 → rv = -1 ∧ st'.cur_mode = satiator_mode.s_cdrom ∧ rest = []) := by
  obtain ⟨s1, h1, _, _, c1, t1⟩ := exec_cmd_spec dev fuel hr unlockFrame HIRQ_EFLS
    (Or.inr (by simp)) st
  obtain ⟨s2, h2, _, _, c2, t2⟩ := exec_cmd_spec dev fuel hr probeFrame 0 (Or.inl rfl) s1
  have h1' : exec_cmd dev fuel ⟨0xe000, 0x0000, 0x00c1, 0x05e7⟩ HIRQ_EFLS st = some s1 := h1
  have h2' : exec_cmd dev fuel ⟨0x0100, 0, 0, 0⟩ 0 s1 = some s2 := h2
  simp only [s_mode, hc, is_satiator_present, readReg, and_ff]
  simp only [reduceCtorEq, if_false, h1', h2']
  generalize hv : dev s2.log Reg.CR3 % 2 ^ Reg.CR3.width = v
  by_cases hp : v % 256 = 2
  · obtain ⟨s3, h3, _, _, _, t3⟩ := exec_cmd_spec dev fuel hr ⟨0x0400, 0x0001, 0x0000, 0x040f⟩ 0
      (Or.inl rfl) { s2 with log := s2.log ++ [Event.rd Reg.CR3 v] }
    refine ⟨v, 0, { s3 with cur_mode := satiator_mode.s_api },
      frameEvents ⟨0x0400, 0x0001, 0x0000, 0x040f⟩, ?_, ?_, fun h => absurd hp h⟩
    · simp [hp, h3, hc]
    · show trace s3.log = _
      rw [t3, trace_append, t2, t1]
      simp [trace, Event.reg]
  · refine ⟨v, -1, { s2 with log := s2.log ++ [Event.rd Reg.CR3 v] }, [], ?_, ?_, fun _ => ?_⟩
    · simp [hp, hc]
    · show trace (s2.log ++ [Event.rd Reg.CR3 v]) = _
      rw [trace_append, t2, t1]
      simp [trace, Event.reg]
    · exact ⟨rfl, by show s2.cur_mode = _; rw [c2, c1, hc], rfl⟩

/-- Claim C2 (as the code has it): under a responsive device, `s_mode(s_api)`
issues the unlock frame and the probe frame and reads the third response
register once (value `v`). When the low byte of `v` is not 2 the call returns
`-1`; the tracked mode is then unchanged if it was DiscEmulation before, and
is DiscEmulation if it was Unknown before (the bootstrap to DiscEmulation is
committed first). With the tracked mode already StorageAPI no probe is made:
the call returns `0` and changes nothing. -/
theorem C2_probe_failure (dev : Device) (fuel : Nat) (hr : Responsive dev fuel)
    (depth : Nat) (st : State) :
    (st.cur_mode = satiator_mode.s_cdrom →
      ∃ (v : Nat) (rv : Int) (st' : State) (rest : List Event),
        s_mode dev fuel (depth + 1) satiator_mode.s_api st = some (rv, st') ∧
        trace st'.log = trace st.log ++ frameEvents unlockFrame ++ frameEvents probeFrame ++
          Event.rd Reg.CR3 v :: rest ∧
        (v % 256 ≠ 2 → rv = -1 ∧ st'.cur_mode = st.cur_mode ∧ rest = [])) ∧
    (st.cur_mode = satiator_mode.s_unknown →
      ∃ (v : Nat) (rv : Int) (st' : State) (rest : List Event),
        s_mode dev fuel (depth + 2) satiator_mode.s_api st = some (rv, st') ∧
        trace st'.log = trace st.log ++ frameEvents cdromFrame ++ frameEvents unlockFrame ++
          frameEvents probeFrame ++ Event.rd Reg.CR3 v :: rest ∧
        (v % 256 ≠ 2 → rv = -1 ∧ st'.cur_mode = satiator_mode.s_cdrom ∧ rest = [])) ∧
    (st.cur_mode = satiator_mode.s_api →
      s_mode dev fuel (depth + 1) satiator_mode.s_api st = some (0, st)) := by
  refine ⟨fun hc => ?_, fun hc => ?_, fun hc => ?_⟩
  · obtain ⟨v, rv, st', rest, h1, h2, h3⟩ := s_mode_api_from_cdrom dev fuel hr depth st hc
    exact ⟨v, rv, st', rest, h1, h2, fun hv => by rw [hc]; exact h3 hv⟩
  · obtain ⟨s1, h1, m1, r1, c1, t1⟩ := exec_cmd_spec dev fuel hr cdromFrame HIRQ_MPED
      (Or.inr (by simp)) { st with cur_mode := satiator_mode.s_api }
    have h1' : exec_cmd dev fuel ⟨0x9300, 1, 0, 0⟩ HIRQ_MPED
        { st with cur_mode := satiator_mode.s_api } = some s1 := h1
    have hin : s_mode dev fuel (depth + 1) satiator_mode.s_cdrom
        { st with cur_mode := satiator_mode.s_api } =
          some (0, { s1 with cur_mode := satiator_mode.s_cdrom }) := by
      simp [s_mode, h1']
    obtain ⟨v, rv, st', rest, g1, g2, g3⟩ := s_mode_api_from_cdrom dev fuel hr 0
      { s1 with cur_mode := satiator_mode.s_cdrom } rfl
    refine ⟨v, rv, st', rest, ?_, ?_, g3⟩
    · rw [s_mode]
      simp only [hc, if_true, hin]
      simpa [s_mode] using g1
    · rw [g2]
      show trace s1.log ++ _ ++ _ ++ _ = _
      rw [t1]
  · simp [s_mode, hc]

theorem C2_probe_failure_witness :
    Responsive (constDevice 0 0 1 0 0) 1 ∧ st0.cur_mode = satiator_mode.s_cdrom ∧
      ∃ (v : Nat) (rv : Int) (st' : State) (rest : List Event),
        s_mode (constDevice 0 0 1 0 0) 1 (0 + 1) satiator_mode.s_api st0 = some (rv, st') ∧
        trace st'.log = trace st0.log ++ frameEvents unlockFrame ++ frameEvents probeFrame ++
          Event.rd Reg.CR3 v :: rest ∧
        (v % 256 ≠ 2 → rv = -1 ∧ st'.cur_mode = st0.cur_mode ∧ rest = []) :=
  ⟨constDevice_responsive 0 0 1 0 0, rfl,
    (C2_probe_failure (constDevice 0 0 1 0 0) 1 (constDevice_responsive 0 0 1 0 0) 0 st0).1 rfl⟩

/-- Claim C2 fails as stated: with the tracked mode Unknown and a device that
answers the probe with version 1 (the read of the third response register is
the last access of the run), `s_mode(s_api)` returns `-1` and the tracked mode
afterwards is DiscEmulation, not Unknown. -/
theorem C2_counterexample :
    (s_mode (constDevice 0 0 1 0 0) 1 2 satiator_mode.s_api stUnknown).map
        (fun x => (x.1, x.2.cur_mode, (trace x.2.log).getLast?)) =
      some (-1, satiator_mode.s_cdrom, some (Event.rd Reg.CR3 1)) ∧
    stUnknown.cur_mode = satiator_mode.s_unknown := by
  decide

/-- Claim C3 (as the code has it): for X = StorageAPI or X = DiscEmulation,
when the tracked mode is already X, `s_mode(X)` returns `0` and leaves the whole
driver state unchanged: the tracked mode stays X and the hardware access log
gains nothing, so no command frame is issued and no register is written. -/
theorem C3_same_mode_noop (dev : Device) (fuel depth : Nat) (X : satiator_mode) (st : State)
    (hX : X ≠ satiator_mode.s_unknown) (hc : st.cur_mode = X) :
    s_mode dev fuel (depth + 1) X st = some (0, st) := by
  subst hc
  simp [s_mode, hX]

theorem C3_same_mode_noop_witness :
    satiator_mode.s_cdrom ≠ satiator_mode.s_unknown ∧ st0.cur_mode = satiator_mode.s_cdrom ∧
      s_mode (constDevice 0 0 0 0 0) 0 (0 + 1) satiator_mode.s_cdrom st0 = some (0, st0) :=
  ⟨by decide, rfl,
    C3_same_mode_noop (constDevice 0 0 0 0 0) 0 0 satiator_mode.s_cdrom st0 (by decide) rfl⟩

/-- Claim C3 fails as stated at X = Unknown: with the tracked mode Unknown,
`s_mode(s_unknown)` issues the disc-emulation frame, the unlock frame and the
probe frame; with a device that answers the probe with version 1 it returns
`-1` and leaves the tracked mode DiscEmulation. -/
theorem C3_counterexample :
    (s_mode (constDevice 0 0 1 0 0) 1 2 satiator_mode.s_unknown stUnknown).map
        (fun x => (x.1, x.2.cur_mode, trace x.2.log)) =
      some (-1, satiator_mode.s_cdrom,
        frameEvents cdromFrame ++ frameEvents unlockFrame ++ frameEvents probeFrame ++
          [Event.rd Reg.CR3 1]) ∧
    stUnknown.cur_mode = satiator_mode.s_unknown := by
  decide

/-- Claim C10 (as the code has it): under a responsive device, `buffer_xfer`
issues its frame and reads the first response register once (value `e`, all 16
bits). It returns `-1` if and only if `e` is non-zero; in that case nothing
follows the read in the trace (no word moves through the transfer register)
and memory is unchanged. When `e` is zero it returns `0` after moving the
payload: `xferWords len` words, plus the two trailer words when writing. -/
theorem C10_transfer_error (dev : Device) (fuel : Nat) (hr : Responsive dev fuel)
    (buf len dir : Int) (st : State) :
    ∃ (e : Nat) (rv : Int) (st' : State) (rest : List Event),
      buffer_xfer dev fuel buf len dir st = some (rv, st') ∧
      trace st'.log = trace st.log ++ frameEvents (xferFrame len dir) ++ Event.rd Reg.CR1 e :: rest ∧
      (rv = -1 ↔ e ≠ 0) ∧
      (e ≠ 0 → rest = [] ∧ st'.mem = st.mem) ∧
      (e = 0 → rv = 0 ∧ rest.length = xferWords len + (if dir ≠ 0 then 2 else 0)) := by
  obtain ⟨e, rv, st', rest, h1, _, _, h4, h5, h6⟩ := buffer_xfer_spec dev fuel hr buf len dir st
  refine ⟨e, rv, st', rest, h1, h4, ?_, fun he => (h5 he).2, fun he => ?_⟩
  · constructor
    · intro hrv he
      have := (h6 he).1
      omega
    · intro he
      exact (h5 he).1
  · obtain ⟨g1, g2, g3⟩ := h6 he
    refine ⟨g1, ?_⟩
    by_cases hd : dir = 0
    · rw [(g3 hd).1]
      simp [hd, bufWords_length]
    · rw [(g2 hd).2]
      simp [hd, bufWords_length]

theorem C10_transfer_error_witness :
    Responsive (constDevice 0 0 0 0 7) 1 ∧
    ∃ (e : Nat) (rv : Int) (st' : State) (rest : List Event),
      buffer_xfer (constDevice 0 0 0 0 7) 1 100 8 0 st0 = some (rv, st') ∧
      trace st'.log = trace st0.log ++ frameEvents (xferFrame 8 0) ++ Event.rd Reg.CR1 e :: rest ∧
      (rv = -1 ↔ e ≠ 0) ∧
      (e ≠ 0 → rest = [] ∧ st'.mem = st0.mem) ∧
      (e = 0 → rv = 0 ∧ rest.length = xferWords 8 + (if (0 : Int) ≠ 0 then 2 else 0)) :=
  ⟨constDevice_responsive 0 0 0 0 7,
    C10_transfer_error (constDevice 0 0 0 0 7) 1 (constDevice_responsive 0 0 0 0 7) 100 8 0 st0⟩

/-- Claim C10 fails as stated: when the first response register reads `0x0001`
after the buffer command, its high byte (the error byte) is zero, yet
`buffer_xfer` returns `-1` and moves no word. -/
theorem C10_counterexample :
    (buffer_xfer (constDevice 1 0 0 0 7) 1 100 8 0 st0).map (fun x => (x.1, trace x.2.log)) =
      some (-1, frameEvents (xferFrame 8 0) ++ [Event.rd Reg.CR1 1]) ∧
    (1 : Nat) >>> 8 = 0 := by
  decide

/-- Claim C9: for `0 ≤ len ≤ S_MAXBUF` (with `S_MAXBUF`, absent from the
sources, small enough for the 16-bit word counter: at most 262140), under a
responsive device and when the buffer command is accepted (the first response
register reads zero): a write-direction `buffer_xfer` follows the command with
exactly the first `ceil(len/4)` words of the buffer, in order, written to the
transfer register, then exactly two zero words, `ceil(len/4) + 2` accesses in
all, and leaves memory unchanged; a read-direction `buffer_xfer` follows it
with exactly `ceil(len/4)` reads of the transfer register and no write, the
values read being the words of the buffer afterwards, in order, and memory
outside those words is unchanged. -/
theorem C9_word_transfer (S_MAXBUF : Int) (hS : S_MAXBUF ≤ 262140) (dev : Device) (fuel : Nat)
    (hr : Responsive dev fuel) (buf len dir : Int) (st : State)
    (h0 : 0 ≤ len) (h1 : len ≤ S_MAXBUF) :
    ∃ (e : Nat) (rv : Int) (st' : State) (rest : List Event),
      buffer_xfer dev fuel buf len dir st = some (rv, st') ∧
      trace st'.log = trace st.log ++ frameEvents (xferFrame len dir) ++ Event.rd Reg.CR1 e :: rest ∧
      (e = 0 →
        (dir ≠ 0 →
          rest = (bufWords st.mem buf ((len.toNat + 3) / 4)).map (Event.wr Reg.DATATRNS) ++
            [Event.wr Reg.DATATRNS 0, Event.wr Reg.DATATRNS 0] ∧
          rest.length = (len.toNat + 3) / 4 + 2 ∧ st'.mem = st.mem) ∧
        (dir = 0 →
          rest = (bufWords st'.mem buf ((len.toNat + 3) / 4)).map (Event.rd Reg.DATATRNS) ∧
          rest.length = (len.toNat + 3) / 4 ∧
          ∀ x, x < buf ∨ buf + 4 * (((len.toNat + 3) / 4 : Nat) : Int) ≤ x →
            st'.mem x = st.mem x)) := by
  obtain ⟨e, rv, st', rest, g1, _, _, g4, _, g6⟩ := buffer_xfer_spec dev fuel hr buf len dir st
  have hn : xferWords len = (len.toNat + 3) / 4 := xferWords_eq len h0 (by omega)
  rw [hn] at g6
  refine ⟨e, rv, st', rest, g1, g4, fun he => ⟨fun hd => ?_, fun hd => ?_⟩⟩
  · obtain ⟨k1, k2⟩ := (g6 he).2.1 hd
    refine ⟨k2, ?_, k1⟩
    rw [k2]
    simp [bufWords_length]
  · obtain ⟨k1, k2⟩ := (g6 he).2.2 hd
    refine ⟨k1, ?_, k2⟩
    rw [k1]
    simp [bufWords_length]

theorem C9_word_transfer_witness :
    (2048 : Int) ≤ 262140 ∧ Responsive (constDevice 0 0 0 0 7) 1 ∧ (0 : Int) ≤ 5 ∧
    (5 : Int) ≤ 2048 ∧
    ∃ (e : Nat) (rv : Int) (st' : State) (rest : List Event),
      buffer_xfer (constDevice 0 0 0 0 7) 1 100 5 1 st0 = some (rv, st') ∧
      trace st'.log = trace st0.log ++ frameEvents (xferFrame 5 1) ++ Event.rd Reg.CR1 e :: rest ∧
      (e = 0 →
        ((1 : Int) ≠ 0 →
          rest = (bufWords st0.mem 100 (((5 : Int).toNat + 3) / 4)).map (Event.wr Reg.DATATRNS) ++
            [Event.wr Reg.DATATRNS 0, Event.wr Reg.DATATRNS 0] ∧
          rest.length = ((5 : Int).toNat + 3) / 4 + 2 ∧ st'.mem = st0.mem) ∧
        ((1 : Int) = 0 →
          rest = (bufWords st'.mem 100 (((5 : Int).toNat + 3) / 4)).map (Event.rd Reg.DATATRNS) ∧
          rest.length = ((5 : Int).toNat + 3) / 4 ∧
          ∀ x, x < 100 ∨ 100 + 4 * ((((5 : Int).toNat + 3) / 4 : Nat) : Int) ≤ x →
            st'.mem x = st0.mem x)) :=
  ⟨by decide, constDevice_responsive 0 0 0 0 7, by decide, by decide,
    C9_word_transfer 2048 (by decide) (constDevice 0 0 0 0 7) 1
      (constDevice_responsive 0 0 0 0 7) 100 5 1 st0 (by decide) (by decide)⟩

/-- Claim C7: for every opcode `op` in `0..255` and all integers `target`,
`flags`, `len`, the frame built by `set_cmd` has word0 = `op*256 + (target mod
256)`, word1 = `flags mod 2^16`, word2 = the upper 16 bits and word3 = the
lower 16 bits of the 32-bit two's-complement pattern of `len`; decoding
`(word2 << 16) | word3` gives `len mod 2^32`, and `get_length` on a response
holding these words is the `int` with that same 32-bit pattern. -/
theorem C7_frame_packing (op target flags len : Int) (h0 : 0 ≤ op) (h1 : op ≤ 255) :
    (set_cmd op target flags len).w0 = op.toNat * 256 + (target % 256).toNat ∧
    (set_cmd op target flags len).w1 = (flags % 65536).toNat ∧
    (set_cmd op target flags len).w2 = (len % 4294967296).toNat / 65536 ∧
    (set_cmd op target flags len).w3 = (len % 4294967296).toNat % 65536 ∧
    ((set_cmd op target flags len).w2 <<< 16) ||| (set_cmd op target flags len).w3
      = (len % 4294967296).toNat ∧
    ∀ st : State, st.sat_result = set_cmd op target flags len →
      (get_length st % 4294967296).toNat = (len % 4294967296).toNat := by
  have hw2 : u16 (len >>> (16 : Nat)) = (len % 4294967296).toNat / 65536 := by
    have hx : 0 ≤ len % 4294967296 := by omega
    have e1 : (len / 65536) % 65536 = (len % 4294967296) / 65536 := by omega
    have e0 : len >>> (16 : Nat) = len / 65536 := by
      rw [Int.shiftRight_eq_div_pow]
      norm_num
    simp only [u16, e0]
    rw [e1]
    generalize len % 4294967296 = x at hx
    lift x to Nat using hx
    rw [Int.toNat_ofNat]
    norm_cast
  have hw3 : u16 len = (len % 4294967296).toNat % 65536 := by
    simp only [u16]
    omega
  have hdec : ((len % 4294967296).toNat / 65536) <<< 16 ||| ((len % 4294967296).toNat % 65536)
      = (len % 4294967296).toNat := by
    rw [shl16_or _ _ (Nat.mod_lt _ (by norm_num))]
    omega
  refine ⟨?_, rfl, hw2, hw3, ?_, ?_⟩
  · have ha : u32 op = op.toNat := by
      simp only [u32]
      omega
    clear hw2 hw3 hdec
    simp only [set_cmd, ha, and_ff]
    rw [shl8_or _ _ (Nat.mod_lt _ (by norm_num))]
    simp only [u32]
    omega
  · simp only [set_cmd, hw2, hw3]
    exact hdec
  · intro st hst
    simp only [get_length, hst, set_cmd, hw2, hw3, hdec, i32]
    split <;> omega

theorem C7_frame_packing_witness :
    (0 : Int) ≤ 0xA3 ∧ (0xA3 : Int) ≤ 255 ∧
    ((set_cmd 0xA3 (-1) (-2) (-3)).w0 = (0xA3 : Int).toNat * 256 + ((-1 : Int) % 256).toNat ∧
    (set_cmd 0xA3 (-1) (-2) (-3)).w1 = ((-2 : Int) % 65536).toNat ∧
    (set_cmd 0xA3 (-1) (-2) (-3)).w2 = ((-3 : Int) % 4294967296).toNat / 65536 ∧
    (set_cmd 0xA3 (-1) (-2) (-3)).w3 = ((-3 : Int) % 4294967296).toNat % 65536 ∧
    ((set_cmd 0xA3 (-1) (-2) (-3)).w2 <<< 16) ||| (set_cmd 0xA3 (-1) (-2) (-3)).w3
      = ((-3 : Int) % 4294967296).toNat ∧
    ∀ st : State, st.sat_result = set_cmd 0xA3 (-1) (-2) (-3) →
      (get_length st % 4294967296).toNat = ((-3 : Int) % 4294967296).toNat) :=
  ⟨by decide, by decide, C7_frame_packing 0xA3 (-1) (-2) (-3) (by decide) (by decide)⟩

/-- A call through the call builder followed by an inbound transfer of `n`
bytes, where `n` is computed from the status response. -/
theorem call_then_read (dev : Device) (fuel : Nat) (hr : Responsive dev fuel)
    (op fd flags len buf : Int) (n : cmd_t → Int) (st : State) :
    ∃ (st2 : State) (e : Nat) (rv : Int) (st3 : State) (rest : List Event),
      simplecall dev fuel op fd flags len st = some (statusError st2.sat_result.w0, st2) ∧
      buffer_read dev fuel buf (n st2.sat_result) st2 = some (rv, st3) ∧
      st2.sat_result.wf ∧ st3.sat_result = st2.sat_result ∧ st3.cur_mode = st.cur_mode ∧
      trace st3.log = trace st.log ++ frameEvents (set_cmd op fd flags len) ++
        frameEvents statusFrame ++ statusEvents st3.sat_result ++
        frameEvents (xferFrame (n st3.sat_result) 0) ++ Event.rd Reg.CR1 e :: rest ∧
      (e = 0 → rest = (bufWords st3.mem buf (xferWords (n st3.sat_result))).map
        (Event.rd Reg.DATATRNS)) := by
  obtain ⟨st2, h2, _, c2, w2, t2⟩ := simplecall_spec dev fuel hr op fd flags len st
  obtain ⟨e, rv, st3, rest, h3, r3, c3, t3, _, z3⟩ :=
    buffer_xfer_spec dev fuel hr buf (n st2.sat_result) 0 st2
  refine ⟨st2, e, rv, st3, rest, h2, h3, w2, r3, by rw [c3, c2], ?_, fun he => ?_⟩
  · rw [t3, t2, r3]
    rfl
  · rw [r3]
    exact ((z3 he).2.2 rfl).1

/-- Claim C4 (as the code has it): for every `buflen ≥ 1`, under a responsive
device, when the error byte of the status response is zero and the reported
length `(word2 << 16) | word3` is below `2^31` (non-negative as an `int`),
`s_getcwd` returns `n = min(buflen-1, reported length)`, issues the read-buffer
frame for `n` bytes (length word `n mod 2^16`), and writes the terminating zero
byte at index `n` with `0 ≤ n < buflen`, inside the supplied buffer. -/
theorem C4_getcwd_clamp (dev : Device) (fuel : Nat) (hr : Responsive dev fuel)
    (dot filename buflen : Int) (st : State) (hb1 : 1 ≤ buflen) (hb2 : buflen < 2147483648) :
    ∃ (rv : Int) (st' : State),
      s_getcwd dev fuel dot filename buflen st = some (rv, st') ∧ st'.sat_result.wf ∧
      (st'.sat_result.w0 >>> 8 = 0 → st'.sat_result.w2 < 32768 →
        rv = min (buflen - 1) (reportedLen st'.sat_result : Int) ∧
        0 ≤ rv ∧ rv < buflen ∧ st'.mem (filename + rv) = 0 ∧
        ∃ (e1 : Nat) (rest1 : List Event) (e : Nat) (rest : List Event),
          trace st'.log = trace st.log ++ frameEvents (xferFrame 1 1) ++
            Event.rd Reg.CR1 e1 :: rest1 ++ frameEvents (set_cmd c_chdir 0 0 1) ++
            frameEvents statusFrame ++ statusEvents st'.sat_result ++
            frameEvents (xferFrame rv 0) ++ Event.rd Reg.CR1 e :: rest ∧
          (e = 0 → rest.length = xferWords rv)) := by
  obtain ⟨e1, rv1, st1, rest1, b1, _, _, t1, _, _⟩ := buffer_xfer_spec dev fuel hr dot 1 1 st
  have b1' : buffer_write dev fuel dot 1 st = some (rv1, st1) := b1
  obtain ⟨st2, e, rv3, st3, rest, g1, g2, w2, r3, _, t3, z3⟩ :=
    call_then_read dev fuel hr c_chdir 0 0 1 filename
      (fun w => if wrap32 (buflen - 1) > i32 ((w.w2 <<< 16) ||| w.w3)
        then i32 ((w.w2 <<< 16) ||| w.w3) else wrap32 (buflen - 1)) st1
  simp only [s_getcwd, b1', g1]
  by_cases hz : st2.sat_result.w0 >>> 8 = 0
  · have g2' : buffer_read dev fuel filename
        (if wrap32 (buflen - 1) > get_length st2 then get_length st2 else wrap32 (buflen - 1))
        st2 = some (rv3, st3) := g2
    simp only [statusError, hz, ne_eq, not_true_eq_false, if_false, g2']
    refine ⟨_, _, rfl, by show st3.sat_result.wf; rw [r3]; exact w2, ?_⟩
    intro _ hs
    have hs : st3.sat_result.w2 < 32768 := hs
    have hw3 : st3.sat_result.wf := by rw [r3]; exact w2
    have hl : get_length st2 = (reportedLen st3.sat_result : Int) := by
      rw [← get_length_eq st3 hw3 hs]
      simp only [get_length, r3]
    have hwr : wrap32 (buflen - 1) = buflen - 1 := wrap32_id _ (by omega) (by omega)
    have hn : (if wrap32 (buflen - 1) > get_length st2 then get_length st2
        else wrap32 (buflen - 1)) = min (buflen - 1) (reportedLen st3.sat_result : Int) := by
      rw [hwr, hl]
      split <;> omega
    have hn3 : (if wrap32 (buflen - 1) > i32 ((st3.sat_result.w2 <<< 16) ||| st3.sat_result.w3)
        then i32 ((st3.sat_result.w2 <<< 16) ||| st3.sat_result.w3)
        else wrap32 (buflen - 1)) = min (buflen - 1) (reportedLen st3.sat_result : Int) := by
      rw [← hn]
      simp only [get_length, r3]
    rw [hn]
    refine ⟨rfl, by omega, by omega, ?_, e1, rest1, e, rest, ?_, ?_⟩
    · simp [storeByte]
    · show trace st3.log = _
      rw [t3, t1, hn3]
    · intro he
      rw [z3 he, hn3]
      simp [bufWords_length]
  · refine ⟨-((st2.sat_result.w0 >>> 8 : Nat) : Int), st2, ?_, w2, fun h => absurd h hz⟩
    simp [statusError, hz]

theorem C4_getcwd_clamp_witness :
    Responsive (constDevice 0 0 0 5 7) 1 ∧ (1 : Int) ≤ 4 ∧ (4 : Int) < 2147483648 ∧
    ∃ (rv : Int) (st' : State),
      s_getcwd (constDevice 0 0 0 5 7) 1 100 200 4 st0 = some (rv, st') ∧ st'.sat_result.wf ∧
      (st'.sat_result.w0 >>> 8 = 0 → st'.sat_result.w2 < 32768 →
        rv = min (4 - 1) (reportedLen st'.sat_result : Int) ∧
        0 ≤ rv ∧ rv < 4 ∧ st'.mem (200 + rv) = 0 ∧
        ∃ (e1 : Nat) (rest1 : List Event) (e : Nat) (rest : List Event),
          trace st'.log = trace st0.log ++ frameEvents (xferFrame 1 1) ++
            Event.rd Reg.CR1 e1 :: rest1 ++ frameEvents (set_cmd c_chdir 0 0 1) ++
            frameEvents statusFrame ++ statusEvents st'.sat_result ++
            frameEvents (xferFrame rv 0) ++ Event.rd Reg.CR1 e :: rest ∧
          (e = 0 → rest.length = xferWords rv)) :=
  ⟨constDevice_responsive 0 0 0 5 7, by decide, by decide,
    C4_getcwd_clamp (constDevice 0 0 0 5 7) 1 (constDevice_responsive 0 0 0 5 7) 100 200 4 st0
      (by decide) (by decide)⟩

/-- Claim C4 fails as stated at `buflen = 0`: with a zero error byte and a
reported length of 5, `s_getcwd(filename, 0)` returns `n = -1` and writes the
zero byte at index `-1` (address `filename - 1`), outside the supplied buffer.
It also fails for `buflen = 4` when the reported length is `2^31` (word2 =
`0x8000`): the length is taken as the `int` `-2^31`, which is returned as `n`. -/
theorem C4_counterexample :
    ((s_getcwd (constDevice 0 0 0 5 7) 1 100 200 0 stFF).map
        (fun x => (x.1, x.2.sat_result, x.2.mem (200 + -1))) =
      some (-1, ⟨0, 0, 0, 5⟩, 0) ∧
    stFF.mem (200 + -1) = 255) ∧
    (s_getcwd (constDevice 0 0 0x8000 0 7) 1 100 200 4 stFF).map
        (fun x => (x.1, x.2.sat_result)) =
      some (-2147483648, ⟨0, 0, 0x8000, 0⟩) := by
  decide

/-- The part of `s_stat` from the call on, started in any state with any name
length. -/
theorem s_stat_tail (dev : Device) (fuel : Nat) (hr : Responsive dev fuel)
    (op len1 stat statsize : Int) (st1 : State) (h9 : 9 ≤ statsize) :
    ∃ (rv : Int) (st' : State),
      (match simplecall dev fuel op 0 0 len1 st1 with
        | none => none
        | some (some r, st) => some (r, st)
        | some (none, st) =>
          match buffer_read dev fuel stat
              (if get_length st > statsize then statsize else get_length st) st with
          | none => none
          | some (_, st2) =>
            some (wrap32 ((if get_length st > statsize then statsize else get_length st) - 9),
              st2)) = some (rv, st') ∧
      st'.sat_result.wf ∧
      (st'.sat_result.w0 >>> 8 = 0 → st'.sat_result.w2 < 32768 →
        rv = min (reportedLen st'.sat_result : Int) statsize - 9 ∧
        ∃ (e : Nat) (rest : List Event),
          trace st'.log = trace st1.log ++ (frameEvents (set_cmd op 0 0 len1) ++
            frameEvents statusFrame) ++ statusEvents st'.sat_result ++
            frameEvents (xferFrame (min (reportedLen st'.sat_result : Int) statsize) 0) ++
            Event.rd Reg.CR1 e :: rest ∧
          (e = 0 → rest = (bufWords st'.mem stat
            (xferWords (min (reportedLen st'.sat_result : Int) statsize))).map
              (Event.rd Reg.DATATRNS))) := by
  obtain ⟨st2, e, rv3, st3, rest, g1, g2, w2, r3, _, t3, z3⟩ :=
    call_then_read dev fuel hr op 0 0 len1 stat
      (fun w => if i32 ((w.w2 <<< 16) ||| w.w3) > statsize then statsize
        else i32 ((w.w2 <<< 16) ||| w.w3)) st1
  simp only [g1]
  by_cases hz : st2.sat_result.w0 >>> 8 = 0
  · have g2' : buffer_read dev fuel stat
        (if get_length st2 > statsize then statsize else get_length st2) st2 =
          some (rv3, st3) := g2
    simp only [statusError, hz, ne_eq, not_true_eq_false, if_false, g2']
    refine ⟨_, _, rfl, by rw [r3]; exact w2, ?_⟩
    intro _ hs
    have hw3 : st3.sat_result.wf := by rw [r3]; exact w2
    have hl : get_length st2 = (reportedLen st3.sat_result : Int) := by
      rw [← get_length_eq st3 hw3 hs]
      simp only [get_length, r3]
    have hn : (if get_length st2 > statsize then statsize else get_length st2) =
        min (reportedLen st3.sat_result : Int) statsize := by
      rw [hl]
      split <;> omega
    have hn3 : (if i32 ((st3.sat_result.w2 <<< 16) ||| st3.sat_result.w3) > statsize
        then statsize else i32 ((st3.sat_result.w2 <<< 16) ||| st3.sat_result.w3)) =
        min (reportedLen st3.sat_result : Int) statsize := by
      rw [← hn]
      simp only [get_length, r3]
    have hr9 : (reportedLen st3.sat_result : Int) < 2147483648 := by
      have := hw3.2.2.2
      simp only [reportedLen]
      omega
    rw [hn]
    refine ⟨wrap32_id _ (by omega) (by omega), e, rest, ?_, ?_⟩
    · rw [t3, hn3]
      simp [List.append_assoc]
    · intro he
      rw [z3 he, hn3]
  · refine ⟨-((st2.sat_result.w0 >>> 8 : Nat) : Int), st2, ?_, w2, fun h => absurd h hz⟩
    simp [statusError, hz]

/-- Claim C8 (as the code has it): for every `statsize < 9`, `s_stat` returns
`-FR_INVALID_PARAMETER` and leaves the whole driver state unchanged (no
hardware access). For every `statsize ≥ 9`, under a responsive device (and a
name, when given, that is zero-terminated within the scan bound), when the
error byte of the status response is zero and the reported length
`(word2 << 16) | word3` is below `2^31` (non-negative as an `int`), `s_stat`
requests exactly `min(reportedLen, statsize)` bytes from the inbound transfer,
moves them into `stat`, and returns `min(reportedLen, statsize) - 9`. -/
theorem C8_stat_clamp (FR_INVALID_PARAMETER : Int) (dev : Device) (fuel : Nat)
    (hr : Responsive dev fuel) (filename : Option Int) (stat statsize : Int) (st : State)
    (hname : ∀ p, filename = some p → ∃ k, strlen st.mem p fuel = some k) :
    (statsize < 9 →
      s_stat FR_INVALID_PARAMETER dev fuel filename stat statsize st
        = some (-FR_INVALID_PARAMETER, st)) ∧
    (9 ≤ statsize →
      ∃ (rv : Int) (st' : State),
        s_stat FR_INVALID_PARAMETER dev fuel filename stat statsize st = some (rv, st') ∧
        st'.sat_result.wf ∧
        (st'.sat_result.w0 >>> 8 = 0 → st'.sat_result.w2 < 32768 →
          rv = min (reportedLen st'.sat_result : Int) statsize - 9 ∧
          ∃ (mid : List Event) (e : Nat) (rest : List Event),
            trace st'.log = trace st.log ++ mid ++ statusEvents st'.sat_result ++
              frameEvents (xferFrame (min (reportedLen st'.sat_result : Int) statsize) 0) ++
              Event.rd Reg.CR1 e :: rest ∧
            (e = 0 → rest = (bufWords st'.mem stat
              (xferWords (min (reportedLen st'.sat_result : Int) statsize))).map
                (Event.rd Reg.DATATRNS)))) := by
  refine ⟨fun h => by simp [s_stat, h], fun h9 => ?_⟩
  have hlt : ¬ statsize < 9 := by omega
  cases filename with
  | none =>
    obtain ⟨rv, st', k1, k2, k3⟩ := s_stat_tail dev fuel hr c_readdir 0 stat statsize st h9
    refine ⟨rv, st', ?_, k2, fun a b => ?_⟩
    · simp only [s_stat, hlt, if_false]
      exact k1
    · obtain ⟨q1, e, rest, q2, q3⟩ := k3 a b
      exact ⟨q1, _, e, rest, q2, q3⟩
  | some p =>
    obtain ⟨k, hk⟩ := hname p rfl
    obtain ⟨e1, rv1, st1, rest1, b1, _, _, t1, _, _⟩ :=
      buffer_xfer_spec dev fuel hr p (wrap32 k) 1 st
    have b1' : buffer_write dev fuel p (wrap32 k) st = some (rv1, st1) := b1
    obtain ⟨rv, st', k1, k2, k3⟩ := s_stat_tail dev fuel hr c_stat (wrap32 k) stat statsize st1 h9
    refine ⟨rv, st', ?_, k2, fun a b => ?_⟩
    · simp only [s_stat, hlt, if_false, hk, b1']
      exact k1
    · obtain ⟨q1, e, rest, q2, q3⟩ := k3 a b
      refine ⟨q1, frameEvents (xferFrame (wrap32 k) 1) ++ Event.rd Reg.CR1 e1 :: rest1 ++
        (frameEvents (set_cmd c_stat 0 0 (wrap32 k)) ++ frameEvents statusFrame),
        e, rest, ?_, q3⟩
      rw [q2, t1]
      simp only [List.append_assoc]

theorem C8_stat_clamp_witness :
    Responsive (constDevice 0 0 0 12 7) 1 ∧
    (∀ p, some 100 = some p → ∃ k, strlen st0.mem p 1 = some k) ∧
    (9 : Int) ≤ 10 ∧
    ∃ (rv : Int) (st' : State),
      s_stat 19 (constDevice 0 0 0 12 7) 1 (some 100) 200 10 st0 = some (rv, st') ∧
      st'.sat_result.wf ∧
      (st'.sat_result.w0 >>> 8 = 0 → st'.sat_result.w2 < 32768 →
        rv = min (reportedLen st'.sat_result : Int) 10 - 9 ∧
        ∃ (mid : List Event) (e : Nat) (rest : List Event),
          trace st'.log = trace st0.log ++ mid ++ statusEvents st'.sat_result ++
            frameEvents (xferFrame (min (reportedLen st'.sat_result : Int) 10) 0) ++
            Event.rd Reg.CR1 e :: rest ∧
          (e = 0 → rest = (bufWords st'.mem 200
            (xferWords (min (reportedLen st'.sat_result : Int) 10))).map
              (Event.rd Reg.DATATRNS))) :=
  ⟨constDevice_responsive 0 0 0 12 7,
    (fun p h => by cases h; exact ⟨0, by decide⟩), (by decide),
    (C8_stat_clamp 19 (constDevice 0 0 0 12 7) 1 (constDevice_responsive 0 0 0 12 7) (some 100)
      200 10 st0 (fun p h => by cases h; exact ⟨0, by decide⟩)).2 (by decide)⟩

/-- Claim C8 fails as stated: with `statsize = 9`, a zero error byte and a
status response whose word2 is `0x8000` (reported length `2^31` as an unsigned
value), `s_stat` does not request `min(2^31, 9) = 9` bytes and return `0`: the
length is taken as the negative `int` `-2^31`, the read-buffer frame carries
length word 0, and the call returns `2^31 - 9`. -/
theorem C8_counterexample :
    (s_stat 19 (constDevice 0 0 0x8000 0 7) 1 none 200 9 st0).map
        (fun x => (x.1, x.2.sat_result, (trace x.2.log).drop 12)) =
      some (2147483639, ⟨0, 0, 0x8000, 0⟩,
        frameEvents ⟨0x9200, 0, 0, 0⟩ ++ [Event.rd Reg.CR1 0, Event.rd Reg.DATATRNS 7]) ∧
    reportedLen ⟨0, 0, 0x8000, 0⟩ = 2147483648 := by
  decide

end Satiator
